import Mathlib

/-!
Verification of the chat-relay backend of the Anything AI repository.

The development shallowly embeds the server code:

* `src/server/utils/errorHandler.ts` (a.k.a. `part_010`): `isRateLimitError`,
  `isTimeoutError`, `normalizeError`, `sendJsonError`, `sendSSEError`.
* `src/server/aiService.ts`: `withBackoff`, `isFollowUpQuestion`,
  `buildContents`, `generateSearchQueryVariations`, `maybeGetWebResults`,
  `streamGenerateContent` (the later of the two revisions bundled in the
  file, which is the one the running server imports).
* `src/server/middleware/auth.ts` (in `part_008`): `checkDepartmentAccess`.
* `src/server/middleware/requestQueue.ts` (in `part_008`): `withQueue`
  concurrency parsing; the queue semantics themselves live in the external
  `p-queue` package and are modelled from the specification.
* `src/server/index.ts`: the `POST /api/chat/stream` handler.

JavaScript effects are embedded explicitly: network/database sub-calls
become oracle parameters (their resolved results), a thrown exception
becomes `Except.error` / an `Option JsError` component, and the side
effects of the HTTP handler become an explicit effect trace.  Machine
numbers stay `Nat` (no overflow is relevant: counters and delays are
small).  String operations used by the code are on ASCII data, where
Lean's `String.toLower`, `trim`, `take` agree with the JavaScript
counterparts.
-/

/-- Model of a JavaScript error value as observed by the error helpers:
an optional numeric `status` property (present on HTTP client errors) and
a message string (`String(err)` for non-`Error` throwables). -/
structure JsError where
  status : Option Nat
  message : String
deriving Repr, DecidableEq

/-- Boolean prefix test on character lists (used to embed the JavaScript
`String.prototype.includes` / `startsWith` operations). -/
def listPrefix : List Char → List Char → Bool
  | [], _ => true
  | _ :: _, [] => false
  | a :: as, b :: bs => a == b && listPrefix as bs

/-- Embedding of the JavaScript `hay.includes(needle)` substring test. -/
def containsSub (hay needle : String) : Bool :=
  (List.range (hay.length + 1)).any fun i => listPrefix needle.data (hay.data.drop i)

/-- Embedding of the JavaScript `s.trim()` operation (whitespace stripped
from both ends), phrased over the character list so that it reduces. -/
def jsTrim (s : String) : String :=
  ⟨((s.data.dropWhile Char.isWhitespace).reverse.dropWhile Char.isWhitespace).reverse⟩

/-- ASCII lowercasing of one character (the inputs in play are ASCII, on
which the JavaScript `toLowerCase` acts exactly like this). -/
def lowerChar (c : Char) : Char :=
  if 65 ≤ c.toNat ∧ c.toNat ≤ 90 then Char.ofNat (c.toNat + 32) else c

/-- Embedding of the JavaScript `s.toLowerCase()` operation. -/
def jsLower (s : String) : String :=
  ⟨s.data.map lowerChar⟩

/-- Embedding of `isRateLimitError` from `src/server/utils/errorHandler.ts`:
an error with a `status` property is rate-limit iff `status === 429`;
otherwise the message is scanned for `429`, `resource exhausted`, `quota`. -/
def isRateLimitError (e : JsError) : Bool :=
  match e.status with
  | some s => s == 429
  | none =>
      containsSub e.message "429"
        || containsSub (jsLower e.message) "resource exhausted"
        || containsSub (jsLower e.message) "quota"

/-- Embedding of `isTimeoutError` from `src/server/utils/errorHandler.ts`. -/
def isTimeoutError (e : JsError) : Bool :=
  containsSub e.message "timeout" || containsSub e.message "ETIMEDOUT"
    || containsSub e.message "deadline"

/-- Embedding of `normalizeError` from `src/server/utils/errorHandler.ts`:
maps an unknown error to `(code, message, statusCode)`. -/
def normalizeError (e : JsError) : String × String × Nat :=
  if isRateLimitError e then
    ("QUOTA_EXCEEDED", "Rate limit exceeded. Please try again in a moment.", 429)
  else if isTimeoutError e then
    ("TIMEOUT", "Request timed out. Please try again.", 504)
  else
    ("SERVER_ERROR",
      (if e.message = "" then "An unexpected error occurred" else e.message), 500)

/-- Constant `MAX_RETRIES` from `src/server/aiService.ts`. -/
def MAX_RETRIES : Nat := 4

/-- Constant `INITIAL_BACKOFF_MS` from `src/server/aiService.ts`. -/
def INITIAL_BACKOFF_MS : Nat := 1000

/-- Observable outcome of a `withBackoff` run: the settled value, the
number of invocations of the wrapped function, and the sequence of sleeps
(in ms) performed between attempts. -/
structure BackoffRun (α : Type) where
  result : Except JsError α
  calls : Nat
  delays : List Nat
deriving Repr

/-- Embedding of `withBackoff` from `src/server/aiService.ts`.  The wrapped
function is an oracle `fn : Nat → Except JsError α` giving the outcome of
its i-th invocation (the source invokes the same closure once per attempt,
so invocation index and attempt number coincide).  A non-rate-limit error,
or exhaustion of `MAX_RETRIES`, rethrows; otherwise the code sleeps
`INITIAL_BACKOFF_MS * 2 ^ attempt` and recurses with `attempt + 1`. -/
def withBackoff (fn : Nat → Except JsError α) (attempt : Nat) : BackoffRun α :=
  match fn attempt with
  | .ok a => ⟨.ok a, 1, []⟩
  | .error e =>
      if isRateLimitError e = false ∨ MAX_RETRIES ≤ attempt then
        ⟨.error e, 1, []⟩
      else
        let rest := withBackoff fn (attempt + 1)
        ⟨rest.result, rest.calls + 1, (INITIAL_BACKOFF_MS * 2 ^ attempt) :: rest.delays⟩
termination_by MAX_RETRIES - attempt
decreasing_by
  simp only [MAX_RETRIES] at *
  omega

theorem withBackoff_retry_step (fn : Nat → Except JsError α) (attempt : Nat) (e : JsError)
    (hf : fn attempt = .error e) (hrl : isRateLimitError e = true)
    (hlt : attempt < MAX_RETRIES) :
    withBackoff fn attempt =
      ⟨(withBackoff fn (attempt + 1)).result,
       (withBackoff fn (attempt + 1)).calls + 1,
       (INITIAL_BACKOFF_MS * 2 ^ attempt) :: (withBackoff fn (attempt + 1)).delays⟩ := by
  rw [withBackoff, hf]
  simp [hrl, Nat.not_le_of_lt hlt]

theorem withBackoff_stop (fn : Nat → Except JsError α) (attempt : Nat) (e : JsError)
    (hf : fn attempt = .error e)
    (h : isRateLimitError e = false ∨ MAX_RETRIES ≤ attempt) :
    withBackoff fn attempt = ⟨.error e, 1, []⟩ := by
  rw [withBackoff, hf]
  simp [h]

/-- C4: a function that always fails with a rate-limit (429-class) error is
invoked exactly 5 times (1 initial + 4 retries), the inter-attempt delays
are 1000, 2000, 4000, 8000 ms, and after the 4th retry the error
propagates; a function whose failure is not a rate-limit error propagates
immediately after a single invocation with no delay. -/
theorem withBackoff_retry_schedule {α : Type}
    (fn g : Nat → Except JsError α) (e : Nat → JsError) (e0 : JsError)
    (hfa : ∀ i, fn i = .error (e i)) (hrl : ∀ i, isRateLimitError (e i) = true)
    (hg : g 0 = .error e0) (hnrl : isRateLimitError e0 = false) :
    withBackoff fn 0 = ⟨.error (e 4), 5, [1000, 2000, 4000, 8000]⟩
      ∧ withBackoff g 0 = ⟨.error e0, 1, []⟩ := by
  have h4 : withBackoff fn 4 = ⟨.error (e 4), 1, []⟩ :=
    withBackoff_stop fn 4 (e 4) (hfa 4) (Or.inr (by norm_num [MAX_RETRIES]))
  have h3 := withBackoff_retry_step fn 3 (e 3) (hfa 3) (hrl 3) (by norm_num [MAX_RETRIES])
  have h2 := withBackoff_retry_step fn 2 (e 2) (hfa 2) (hrl 2) (by norm_num [MAX_RETRIES])
  have h1 := withBackoff_retry_step fn 1 (e 1) (hfa 1) (hrl 1) (by norm_num [MAX_RETRIES])
  have h0 := withBackoff_retry_step fn 0 (e 0) (hfa 0) (hrl 0) (by norm_num [MAX_RETRIES])
  rw [h4] at h3
  rw [h3] at h2
  rw [h2] at h1
  rw [h1] at h0
  refine ⟨?_, withBackoff_stop g 0 e0 hg (Or.inl hnrl)⟩
  rw [h0]
  norm_num [INITIAL_BACKOFF_MS]

/-- C4 witness: concrete always-429 and non-rate-limit oracles. -/
theorem withBackoff_retry_schedule_witness :
    withBackoff (α := Nat) (fun _ => .error ⟨some 429, "quota hit"⟩) 0
        = ⟨.error ⟨some 429, "quota hit"⟩, 5, [1000, 2000, 4000, 8000]⟩
      ∧ withBackoff (α := Nat) (fun _ => .error ⟨some 500, "boom"⟩) 0
        = ⟨.error ⟨some 500, "boom"⟩, 1, []⟩ :=
  withBackoff_retry_schedule
    (fun _ => .error ⟨some 429, "quota hit"⟩)
    (fun _ => .error ⟨some 500, "boom"⟩)
    (fun _ => ⟨some 429, "quota hit"⟩) ⟨some 500, "boom"⟩
    (fun _ => rfl) (fun _ => rfl) rfl rfl

/-- Decision taken by an Express middleware or handler before any SSE
stream is opened: either pass control on (`allow`) or answer with a plain
JSON error body `{error:true, code, message}` at the given HTTP status. -/
inductive AccessDecision
  | allow
  | reject (statusCode : Nat) (code : String) (message : String)
deriving Repr, DecidableEq

/-- Embedding of the JavaScript regular-expression test
`/^\d{4}$/.test(codeStr)`: exactly four decimal digits. -/
def isFourDigits (s : String) : Bool :=
  s.length == 4 && s.data.all Char.isDigit

/-- Embedding of `checkDepartmentAccess` from `src/server/middleware/auth.ts`.
Arguments: `user` is the department id of the authenticated requester
(`none` when `req.user` is unset), `departmentId` and `accessCodeRaw` come
from the request body/query (string fields; `none` for absent), and
`deptLookup` is the oracle result of the `Department.findById` DB call:
`none` for department not found, otherwise the department's stored
`accessCode` field (`none` when the schema field is unset). -/
def checkDepartmentAccess (user : Option String) (departmentId : Option String)
    (accessCodeRaw : Option String) (deptLookup : Option (Option String)) :
    AccessDecision :=
  match user with
  | none => .reject 401 "UNAUTHORIZED" "Authentication required."
  | some userDeptId =>
    match departmentId with
    | none => .reject 400 "BAD_REQUEST" "departmentId is required."
    | some requestedDeptId =>
      if userDeptId ≠ requestedDeptId then
        .reject 403 "FORBIDDEN" "You can only access spaces in your own department."
      else
        match deptLookup with
        | none => .reject 400 "BAD_REQUEST" "Department not found."
        | some rawStored =>
          let storedCode := jsTrim (rawStored.getD "")
          if storedCode = "" then .allow
          else
            match accessCodeRaw with
            | none => .reject 403 "FORBIDDEN" "Access code required for this space."
            | some raw =>
              if raw = "" then .reject 403 "FORBIDDEN" "Access code required for this space."
              else
                let codeStr := jsTrim raw
                if isFourDigits codeStr = false then
                  .reject 400 "BAD_REQUEST" "Access code must be 4 digits."
                else if storedCode ≠ codeStr then
                  .reject 403 "FORBIDDEN" "Invalid access code."
                else .allow

/-- Predicate: the decision is a 403 FORBIDDEN rejection. -/
def isForbidden : AccessDecision → Bool
  | .reject 403 "FORBIDDEN" _ => true
  | _ => false

/-- C9 counterexample: the claim as stated fails on the code.  The request
supplies the non-empty access code " 1234" — which is not exactly four
digits — against a department whose stored code is "1234"; the middleware
trims the input before the format test and before comparison, so it
allows the request rather than answering 400 BAD_REQUEST. -/
theorem accessCode_untrimmed_counterexample :
    (" 1234" ≠ "")
      ∧ isFourDigits " 1234" = false
      ∧ checkDepartmentAccess (some "d1") (some "d1") (some " 1234") (some (some "1234"))
          = .allow
      ∧ checkDepartmentAccess (some "d1") (some "d1") (some " 1234") (some (some "1234"))
          ≠ .reject 400 "BAD_REQUEST" "Access code must be 4 digits." := by
  refine ⟨by decide, by decide, ?_, ?_⟩ <;> decide

/-- Reduction of `checkDepartmentAccess` on the same-department path with a
department whose stored access code trims to a non-empty string. -/
theorem checkDepartmentAccess_stored_code (d s : String) (raw? : Option String)
    (hs : jsTrim s ≠ "") :
    checkDepartmentAccess (some d) (some d) raw? (some (some s)) =
      match raw? with
      | none => .reject 403 "FORBIDDEN" "Access code required for this space."
      | some raw =>
        if raw = "" then .reject 403 "FORBIDDEN" "Access code required for this space."
        else if isFourDigits (jsTrim raw) = false then
          .reject 400 "BAD_REQUEST" "Access code must be 4 digits."
        else if jsTrim s ≠ jsTrim raw then
          .reject 403 "FORBIDDEN" "Invalid access code."
        else .allow := by
  cases raw? <;> simp [checkDepartmentAccess, Option.getD, hs]

/-- C9 amended: for a department that stores a (trimmed) non-empty access
code and a same-department requester, a supplied non-empty access code
whose TRIMMED value is not exactly four digits is answered with 400
BAD_REQUEST ("Access code must be 4 digits."), not 403; and a 403
FORBIDDEN arises only from a missing/empty supplied code or from a
supplied code trimming to four digits that differs from the stored
(trimmed) code. -/
theorem checkDepartmentAccess_code_format (d s : String) (raw : Option String)
    (hs : jsTrim s ≠ "") :
    (∀ r, raw = some r → r ≠ "" → isFourDigits (jsTrim r) = false →
        checkDepartmentAccess (some d) (some d) raw (some (some s))
          = .reject 400 "BAD_REQUEST" "Access code must be 4 digits.")
      ∧ (isForbidden (checkDepartmentAccess (some d) (some d) raw (some (some s))) = true →
          raw = none ∨ raw = some ""
            ∨ ∃ r, raw = some r ∧ isFourDigits (jsTrim r) = true ∧ jsTrim r ≠ jsTrim s) := by
  constructor
  · intro r hr hne hfmt
    subst hr
    rw [checkDepartmentAccess_stored_code d s (some r) hs]
    simp [hne, hfmt]
  · intro hforb
    rw [checkDepartmentAccess_stored_code d s raw hs] at hforb
    cases raw with
    | none => exact Or.inl rfl
    | some r =>
      by_cases hre : r = ""
      · exact Or.inr (Or.inl (by rw [hre]))
      · refine Or.inr (Or.inr ⟨r, rfl, ?_⟩)
        by_cases hfmt : isFourDigits (jsTrim r) = true
        · refine ⟨hfmt, ?_⟩
          intro heq
          rw [heq] at hfmt
          simp [hre, hfmt, heq, isForbidden] at hforb
        · simp only [Bool.not_eq_true] at hfmt
          simp [hre, hfmt, isForbidden] at hforb

/-- C9 witness: a supplied code "99" (non-empty, not four digits even
after trimming) against stored code "1234" is answered 400. -/
theorem checkDepartmentAccess_code_format_witness :
    checkDepartmentAccess (some "d1") (some "d1") (some "99") (some (some "1234"))
      = .reject 400 "BAD_REQUEST" "Access code must be 4 digits." :=
  (checkDepartmentAccess_code_format "d1" "1234" (some "99") (by decide)).1
    "99" rfl (by decide) (by decide)

/-- A Google Custom Search result as used by the server
(`GoogleSearchResult` in `src/server/services/googleSearch.ts`); absent
fields are the empty string, matching the JavaScript falsiness checks. -/
structure SearchResult where
  title : String
  link : String
  snippet : String
deriving Repr, DecidableEq

/-- Relevance score used by the comparator in `maybeGetWebResults`
(`src/server/aiService.ts`): one point for a non-empty title, one for a
non-empty snippet. -/
def score (r : SearchResult) : Nat :=
  (if r.title = "" then 0 else 1) + (if r.snippet = "" then 0 else 1)

/-- Ordering relation realised by the JavaScript comparator
`(a, b) => bScore - aScore`: descending relevance score. -/
def byRelevance (a b : SearchResult) : Prop := score b ≤ score a

instance : DecidableRel byRelevance := fun a b => Nat.decLe (score b) (score a)

instance : IsTotal SearchResult byRelevance :=
  ⟨fun a b => (Nat.le_total (score b) (score a)).symm.symm⟩

instance : IsTrans SearchResult byRelevance :=
  ⟨fun _ _ _ hab hbc => Nat.le_trans hbc hab⟩

/-- Embedding of the URL normalisation in `maybeGetWebResults`: drop one
trailing slash (`replace(/\/$/, '')`). -/
def stripTrailingSlash (s : String) : String :=
  if s.data.getLast? = some '/' then ⟨s.data.dropLast⟩ else s

/-- Embedding of `link.split('?')[0]`: the prefix before the first `?`. -/
def takeBeforeQuery (s : String) : String :=
  ⟨s.data.takeWhile (· ≠ '?')⟩

/-- Embedding of the full URL normalisation chain in `maybeGetWebResults`:
drop a trailing slash, drop the query string, lowercase. -/
def normalizeUrl (s : String) : String :=
  jsLower (takeBeforeQuery (stripTrailingSlash s))

/-- Embedding of `generateSearchQueryVariations` from
`src/server/aiService.ts`: the original query plus time/context variations
keyed on `trending` / `latest` / `today`, capped at 4 queries. -/
def generateSearchQueryVariations (query : String) : List String :=
  let lowerQuery := jsLower query
  let timeVariations :=
    if containsSub lowerQuery "trending" || containsSub lowerQuery "latest"
        || containsSub lowerQuery "today" then
      [query ++ " February 2026", query ++ " current events", query ++ " news"]
    else []
  let contextVariations :=
    if !containsSub lowerQuery "trending" && !containsSub lowerQuery "latest" then
      [query ++ " 2026", query ++ " recent"]
    else []
  (([query] ++ timeVariations) ++ contextVariations).take 4

/-- Sequential execution of the per-variation `performWebSearch` calls in
`maybeGetWebResults`, flattened in order; the first rejected call aborts
the whole `try` block. -/
def collectSearches (qs : List String)
    (search : String → Except JsError (List SearchResult)) :
    Except JsError (List SearchResult) :=
  match qs with
  | [] => .ok []
  | q :: rest =>
    match search q with
    | .error e => .error e
    | .ok rs =>
      match collectSearches rest search with
      | .error e => .error e
      | .ok rest' => .ok (rs ++ rest')

/-- Embedding of the aggregation/deduplication loop of
`maybeGetWebResults`: keep a result iff its normalised URL was not seen
before and its link is non-empty ("truthy"); record kept URLs. -/
def dedupeGo (seen : List String) : List SearchResult → List SearchResult
  | [] => []
  | r :: rest =>
    let nu := normalizeUrl r.link
    if seen.contains nu = false ∧ r.link ≠ "" then
      r :: dedupeGo (nu :: seen) rest
    else
      dedupeGo seen rest

/-- Value returned by a successful `maybeGetWebResults` call. -/
structure WebRes where
  results : List SearchResult
  lastUpdated : String
deriving Repr, DecidableEq

/-- Embedding of `maybeGetWebResults` (second revision in
`src/server/aiService.ts`, the one in use): empty trimmed message yields
`null`; otherwise the query variations are searched sequentially, results
are deduplicated by normalised URL, sorted by descending relevance
(JavaScript `Array.prototype.sort` is stable; any sort realising the
comparator order satisfies the stated claims), truncated to 20, and
wrapped with the `lastUpdated` timestamp `now`; any error inside the
`try` block is caught and yields `null`. -/
def maybeGetWebResults (message : String)
    (search : String → Except JsError (List SearchResult)) (now : String) :
    Option WebRes :=
  if jsTrim message = "" then none
  else
    match collectSearches (generateSearchQueryVariations (jsTrim message)) search with
    | .error _ => none
    | .ok allResults =>
      some ⟨((dedupeGo [] allResults).insertionSort byRelevance).take 20, now⟩

theorem mem_dedupeGo (l : List SearchResult) (seen : List String) (r : SearchResult)
    (h : r ∈ dedupeGo seen l) :
    seen.contains (normalizeUrl r.link) = false ∧ r.link ≠ "" := by
  induction l generalizing seen with
  | nil => simp [dedupeGo] at h
  | cons a rest ih =>
    by_cases hc : seen.contains (normalizeUrl a.link) = false ∧ a.link ≠ ""
    · rw [dedupeGo, if_pos hc] at h
      rcases List.mem_cons.mp h with heq | hmem
      · subst heq
        exact hc
      · have := ih _ hmem
        refine ⟨?_, this.2⟩
        have hcons := this.1
        simp only [List.contains_cons, Bool.or_eq_false_iff] at hcons
        exact hcons.2
    · rw [dedupeGo, if_neg hc] at h
      exact ih _ h

theorem pairwise_dedupeGo (l : List SearchResult) (seen : List String) :
    (dedupeGo seen l).Pairwise
      (fun a b => normalizeUrl a.link ≠ normalizeUrl b.link) := by
  induction l generalizing seen with
  | nil => simp [dedupeGo]
  | cons a rest ih =>
    by_cases hc : seen.contains (normalizeUrl a.link) = false ∧ a.link ≠ ""
    · rw [dedupeGo, if_pos hc]
      refine List.Pairwise.cons ?_ (ih _)
      intro b hb
      have := (mem_dedupeGo _ _ _ hb).1
      simp only [List.contains_cons, Bool.or_eq_false_iff, beq_eq_false_iff_ne,
        ne_eq] at this
      exact fun hab => this.1 (hab ▸ rfl)
    · rw [dedupeGo, if_neg hc]
      exact ih _

/-- C7: web-context resolution is best-effort.  If any underlying search
call fails, `maybeGetWebResults` returns `null` (the error never escapes
its boundary — witnessed by the total `Option` embedding of the
`try`/`catch`); every non-null return carries deduplicated results (no two
share a normalised URL, all links non-empty) ranked by descending
relevance and capped at 20, stamped with the current time. -/
theorem maybeGetWebResults_best_effort (message now : String)
    (search : String → Except JsError (List SearchResult)) :
    (∀ e, collectSearches (generateSearchQueryVariations (jsTrim message)) search
          = .error e →
        maybeGetWebResults message search now = none)
      ∧ ∀ w, maybeGetWebResults message search now = some w →
          w.results.length ≤ 20
            ∧ w.results.Pairwise (fun a b => normalizeUrl a.link ≠ normalizeUrl b.link)
            ∧ w.results.Sorted byRelevance
            ∧ (∀ r ∈ w.results, r.link ≠ "")
            ∧ w.lastUpdated = now := by
  constructor
  · intro e he
    unfold maybeGetWebResults
    by_cases hq : jsTrim message = ""
    · simp [hq]
    · simp [hq, he]
  · intro w hw
    unfold maybeGetWebResults at hw
    by_cases hq : jsTrim message = ""
    · simp [hq] at hw
    · rw [if_neg hq] at hw
      match hcol : collectSearches (generateSearchQueryVariations (jsTrim message)) search with
      | .error e => rw [hcol] at hw; simp at hw
      | .ok allResults =>
        rw [hcol] at hw
        injection hw with hw
        subst hw
        have hperm := List.perm_insertionSort byRelevance (dedupeGo [] allResults)
        have hpair : ((dedupeGo [] allResults).insertionSort byRelevance).Pairwise
            (fun a b => normalizeUrl a.link ≠ normalizeUrl b.link) :=
          (hperm.pairwise_iff (fun hab h => hab h.symm)).mpr
            (pairwise_dedupeGo allResults [])
        refine ⟨List.length_take_le _ _, ?_, ?_, ?_, rfl⟩
        · exact hpair.sublist (List.take_sublist _ _)
        · exact (List.sorted_insertionSort byRelevance _).sublist (List.take_sublist _ _)
        · intro r hr
          have hr' : r ∈ (dedupeGo [] allResults).insertionSort byRelevance :=
            List.mem_of_mem_take hr
          have : r ∈ dedupeGo [] allResults := hperm.mem_iff.mp hr'
          exact (mem_dedupeGo _ _ _ this).2

/-- C7 witness: a concrete message and search oracle; the returned result
list satisfies the deduplication, ranking and bound facts of the main
theorem. -/
theorem maybeGetWebResults_best_effort_witness :
    (WebRes.mk [⟨"t", "http://A/x?q", ""⟩] "now").results.length ≤ 20
      ∧ (WebRes.mk [⟨"t", "http://A/x?q", ""⟩] "now").results.Pairwise
          (fun a b => normalizeUrl a.link ≠ normalizeUrl b.link)
      ∧ (WebRes.mk [⟨"t", "http://A/x?q", ""⟩] "now").results.Sorted byRelevance
      ∧ (WebRes.mk [⟨"t", "http://A/x?q", ""⟩] "now").lastUpdated = "now" :=
  let h := (maybeGetWebResults_best_effort "hi" "now"
    (fun _ => .ok [⟨"t", "http://A/x?q", ""⟩, ⟨"u", "http://a/x", "s"⟩])).2
    ⟨[⟨"t", "http://A/x?q", ""⟩], "now"⟩ (by decide)
  ⟨h.1, h.2.1, h.2.2.1, h.2.2.2.2⟩

/-- Message role as stored in `history` / the messages collection. -/
inductive Role
  | user
  | model
deriving Repr, DecidableEq

/-- Embedding of the role tag written by `buildContents`:
the expression `turn.role === 'user' ? 'user' : 'model'`. -/
def roleStr : Role → String
  | .user => "user"
  | .model => "model"

/-- One part of a Gemini `Content`: a text part or an inline image part. -/
inductive GPart
  | text (t : String)
  | inlineData (mimeType data : String)
deriving Repr, DecidableEq

/-- A role-tagged Gemini `Content` entry. -/
structure GContent where
  role : String
  parts : List GPart
deriving Repr, DecidableEq

/-- Return shape of `buildContents`: a bare string for the single-turn
optimisation, otherwise an ordered `Content` array. -/
inductive GenContents
  | single (message : String)
  | list (contents : List GContent)
deriving Repr, DecidableEq

/-- Embedding of `isFollowUpQuestion` from `src/server/aiService.ts`
(second revision): prefix match or short-message heuristic against a
fixed indicator list. -/
def isFollowUpQuestion (currentMessage : String) (history : List (Role × String)) :
    Bool :=
  if history.isEmpty then false
  else
    let lowerMessage := jsTrim (jsLower currentMessage)
    let followUpIndicators := ["what about", "and", "also", "tell me more",
      "explain", "how about", "what if", "can you", "could you", "please",
      "yes", "no", "ok", "thanks", "thank you", "that", "this", "it",
      "they", "he", "she"]
    let startsWithFollowUp :=
      followUpIndicators.any fun ind => listPrefix ind.data lowerMessage.data
    let isShortFollowUp :=
      decide (lowerMessage.length < 20)
        && (containsSub lowerMessage "?"
              || followUpIndicators.any fun ind => containsSub lowerMessage ind)
    startsWithFollowUp || isShortFollowUp

/-- Embedding of `buildContents` from `src/server/aiService.ts` (second
revision).  The weather/time contexts are IO lookups in the source
(`getWeatherContext` / `getTimeContext`); their resolved values are passed
as oracles, `none` for a `null` return.  `webContext` is the caller-built
web grounding string (`undefined` becomes `none`).  With no history, no
image and no contexts the prompt collapses to the bare message; otherwise
included history (gated by the follow-up heuristic, capped to the last 4
turns) precedes the time/weather/web context turns, and the final user
turn (message plus optional inline image) comes last. -/
def buildContents (message : String) (history : List (Role × String))
    (imageBase64 mimeType : Option String)
    (weatherContext timeContext webContext : Option String) : GenContents :=
  let hasHistory : Bool := !history.isEmpty
  let hasImage : Bool :=
    decide (imageBase64.getD "" ≠ "") && decide (mimeType.getD "" ≠ "")
  let isFollowUp : Bool := if hasHistory then isFollowUpQuestion message history else false
  if hasHistory = false ∧ hasImage = false ∧ weatherContext = none
      ∧ timeContext = none ∧ webContext = none then
    .single message
  else
    let histContents :=
      if hasHistory && (isFollowUp || decide (history.length ≤ 2)) then
        (history.drop (history.length - 4)).map fun t =>
          GContent.mk (roleStr t.1) [GPart.text t.2]
      else []
    let ctxContents :=
      ([timeContext, weatherContext, webContext].filterMap id).map fun c =>
        GContent.mk "user" [GPart.text c]
    let lastParts :=
      [GPart.text message]
        ++ (if hasImage then [GPart.inlineData (mimeType.getD "") (imageBase64.getD "")]
            else [])
    .list (histContents ++ ctxContents ++ [⟨"user", lastParts⟩])

/-- C8: the round-trip prompt for history `[(user,"hi"), (model,"hello")]`
and message `"how are you?"` with no image and no injected context is the
three turns in order, the new message last and tagged `user`. -/
theorem buildContents_roundtrip_three_turns :
    buildContents "how are you?" [(Role.user, "hi"), (Role.model, "hello")]
        none none none none none
      = .list [⟨"user", [.text "hi"]⟩, ⟨"model", [.text "hello"]⟩,
          ⟨"user", [.text "how are you?"]⟩] := by
  decide

/-- A StreamPayload value yielded by `streamGenerateContent`
(`src/server/aiService.ts`): a token chunk, the web-results meta event, or
the terminal done event with usage totals. -/
inductive StreamPayload
  | token (text : String)
  | meta (webResults : List SearchResult) (lastUpdated : String)
  | done (inputTokens outputTokens : Nat)
deriving Repr, DecidableEq

/-- One chunk of the upstream `generateContentStream` iteration: an
optional `text` field and optional `usageMetadata`
`(promptTokenCount?, candidatesTokenCount?)`. -/
structure Chunk where
  text : Option String
  usageMetadata : Option (Option Nat × Option Nat)
deriving Repr, DecidableEq

/-- Token events relayed from the upstream chunks, in upstream order: one
`token` event per chunk with a truthy (present and non-empty) `text`. -/
def tokenEventsOf (chunks : List Chunk) : List StreamPayload :=
  chunks.filterMap fun c =>
    match c.text with
    | some t => if t = "" then none else some (.token t)
    | none => none

/-- Running `fullText` accumulated by the generator over truthy chunk
texts. -/
def fullTextOf (chunks : List Chunk) : String :=
  String.join (chunks.filterMap fun c =>
    match c.text with
    | some t => if t = "" then none else some t
    | none => none)

/-- The `lastUsage` variable of the generator: the last `usageMetadata`
seen across the stream. -/
def lastUsageOf (chunks : List Chunk) : Option (Option Nat × Option Nat) :=
  (chunks.filterMap (·.usageMetadata)).getLast?

/-- The terminal `done` event built by the generator: usage from the last
stream metadata when present, else the post-hoc count of `fullText`
(fail-open to 0), with `countInput` the fail-open result of the initial
`countInputTokens` call. -/
def doneEventOf (countInput : Nat) (countFullText : Except JsError Nat)
    (chunks : List Chunk) : StreamPayload :=
  match lastUsageOf chunks with
  | some (p, c) => .done (p.getD countInput) (c.getD 0)
  | none =>
    if fullTextOf chunks = "" then .done countInput 0
    else .done countInput (match countFullText with | .ok n => n | .error _ => 0)

/-- The `meta` event yielded when web results were resolved. -/
def metaEventsOf (web : Option WebRes) : List StreamPayload :=
  match web with
  | some w => [.meta w.results w.lastUpdated]
  | none => []

/-- Embedding of `streamGenerateContent` (second revision in
`src/server/aiService.ts`): the generator resolves web results
(best-effort), yields the `meta` event if they resolved, then relays one
`token` event per truthy upstream chunk text, and finally yields exactly
one `done` event carrying usage.  The pair returned here is the sequence
of yielded events together with the error the generator raises instead of
further events (`streamErr` is the oracle for a rejected
`generateContentStream` call — after `withBackoff` — or a mid-iteration
stream failure; chunks delivered before the failure were already
relayed). -/
def streamGenerateContent (message : String)
    (search : String → Except JsError (List SearchResult)) (now : String)
    (countInput : Nat) (chunks : List Chunk) (streamErr : Option JsError)
    (countFullText : Except JsError Nat) : List StreamPayload × Option JsError :=
  let web := maybeGetWebResults message search now
  match streamErr with
  | some e => (metaEventsOf web ++ tokenEventsOf chunks, some e)
  | none =>
      (metaEventsOf web ++ tokenEventsOf chunks
        ++ [doneEventOf countInput countFullText chunks], none)

/-- Tag test: is a meta event. -/
def isMetaEv : StreamPayload → Bool
  | .meta _ _ => true
  | _ => false

/-- Tag test: is a token event. -/
def isTokenEv : StreamPayload → Bool
  | .token _ => true
  | _ => false

/-- Tag test: is the terminal done event. -/
def isDoneEv : StreamPayload → Bool
  | .done _ _ => true
  | _ => false

theorem isTokenEv_tokenEventsOf (chunks : List Chunk) :
    ∀ ev ∈ tokenEventsOf chunks, isTokenEv ev = true := by
  intro ev hev
  simp only [tokenEventsOf, List.mem_filterMap] at hev
  obtain ⟨c, -, hc⟩ := hev
  rcases ht : c.text with - | t
  · rw [ht] at hc
    simp at hc
  · rw [ht] at hc
    by_cases h0 : t = ""
    · simp [h0] at hc
    · simp only [h0, if_false, Option.some.injEq] at hc
      rw [← hc]
      rfl

theorem isDoneEv_doneEventOf (countInput : Nat) (countFullText : Except JsError Nat)
    (chunks : List Chunk) :
    isDoneEv (doneEventOf countInput countFullText chunks) = true := by
  unfold doneEventOf
  rcases lastUsageOf chunks with - | ⟨p, c⟩
  · by_cases h : fullTextOf chunks = "" <;> simp [h, isDoneEv]
  · rfl

/-- C2: for every request, the sequence of StreamPayloads yielded by
`streamGenerateContent` consists of at most one `meta` event, placed
before every `token` event, followed by the relayed `token` events in
upstream order, and — exactly when the upstream stream succeeds — exactly
one terminal `done` event closing the sequence; on failure the generator
raises the upstream error instead of yielding further events (no terminal
event is yielded). -/
theorem streamGenerateContent_event_invariant (message now : String)
    (search : String → Except JsError (List SearchResult)) (countInput : Nat)
    (chunks : List Chunk) (streamErr : Option JsError)
    (countFullText : Except JsError Nat) :
    ∃ metaPart,
      (streamGenerateContent message search now countInput chunks streamErr
          countFullText).1
          = metaPart ++ tokenEventsOf chunks
              ++ (match streamErr with
                  | none => [doneEventOf countInput countFullText chunks]
                  | some _ => [])
        ∧ (streamGenerateContent message search now countInput chunks streamErr
            countFullText).2 = streamErr
        ∧ metaPart.length ≤ 1
        ∧ (∀ ev ∈ metaPart, isMetaEv ev = true)
        ∧ (∀ ev ∈ tokenEventsOf chunks, isTokenEv ev = true)
        ∧ isDoneEv (doneEventOf countInput countFullText chunks) = true := by
  refine ⟨metaEventsOf (maybeGetWebResults message search now), ?_, ?_, ?_, ?_,
    isTokenEv_tokenEventsOf chunks, isDoneEv_doneEventOf countInput countFullText chunks⟩
  · cases streamErr <;> simp [streamGenerateContent]
  · cases streamErr <;> simp [streamGenerateContent]
  · rcases maybeGetWebResults message search now with - | w <;> simp [metaEventsOf]
  · intro ev hev
    simp only [metaEventsOf] at hev
    rcases hmw : maybeGetWebResults message search now with - | w
    · rw [hmw] at hev
      simp at hev
    · rw [hmw] at hev
      simp only [List.mem_singleton] at hev
      rw [hev]
      rfl

/-- C2 witness: the invariant instantiated at a concrete request whose
upstream stream yields two text chunks and usage metadata. -/
theorem streamGenerateContent_event_invariant_witness :
    ∃ metaPart,
      (streamGenerateContent "hi" (fun _ => .error ⟨some 500, "down"⟩) "now" 7
          [⟨some "a", none⟩, ⟨none, none⟩, ⟨some "b", some (some 3, some 4)⟩] none
          (.ok 9)).1
          = metaPart
              ++ tokenEventsOf
                  [⟨some "a", none⟩, ⟨none, none⟩, ⟨some "b", some (some 3, some 4)⟩]
              ++ (match (none : Option JsError) with
                  | none => [doneEventOf 7 (.ok 9)
                      [⟨some "a", none⟩, ⟨none, none⟩, ⟨some "b", some (some 3, some 4)⟩]]
                  | some _ => [])
        ∧ (streamGenerateContent "hi" (fun _ => .error ⟨some 500, "down"⟩) "now" 7
            [⟨some "a", none⟩, ⟨none, none⟩, ⟨some "b", some (some 3, some 4)⟩] none
            (.ok 9)).2 = none
        ∧ metaPart.length ≤ 1
        ∧ (∀ ev ∈ metaPart, isMetaEv ev = true)
        ∧ (∀ ev ∈ tokenEventsOf
              [⟨some "a", none⟩, ⟨none, none⟩, ⟨some "b", some (some 3, some 4)⟩],
            isTokenEv ev = true)
        ∧ isDoneEv (doneEventOf 7 (.ok 9)
            [⟨some "a", none⟩, ⟨none, none⟩, ⟨some "b", some (some 3, some 4)⟩]) = true :=
  streamGenerateContent_event_invariant "hi" "now" (fun _ => .error ⟨some 500, "down"⟩)
    7 [⟨some "a", none⟩, ⟨none, none⟩, ⟨some "b", some (some 3, some 4)⟩] none (.ok 9)

/-- An SSE `data:` frame written by the chat-stream route: the
new-conversation announcement, a relayed StreamPayload, or the error
payload `{error:true, code, message}` written by `sendSSEError`. -/
inductive Frame
  | conversation (conversationId : String) (title : Option String)
  | event (p : StreamPayload)
  | errorFrame (code message : String)
deriving Repr, DecidableEq

/-- Observable side effects of the `POST /api/chat/stream` task, in
program order: DB reads/writes, SSE frame writes, response end. -/
inductive Eff
  | findConversation
  | createConversation
  | queryMessages
  | countMessages
  | createMessage (role : Role) (text : String)
  | updateTitle (title : String)
  | writeFrame (f : Frame)
  | endResponse
deriving Repr, DecidableEq

/-- Model of the mutable HTTP response as seen by the error helpers:
whether headers were already flushed, the frames written so far, and
whether the response was ended. -/
structure SSEResponse where
  headersSent : Bool
  frames : List Frame
  ended : Bool
deriving Repr, DecidableEq

/-- Embedding of `sendSSEError` from `src/server/utils/errorHandler.ts`:
the function returns without writing anything when `res.headersSent` is
already true, else writes the error payload as a `data:` frame. -/
def sendSSEError (res : SSEResponse) (code message : String) : SSEResponse :=
  if res.headersSent then res
  else { res with frames := res.frames ++ [.errorFrame code message] }

/-- Frame-write effects produced by a `sendSSEError` call against a fresh
frame log, lifted into the effect trace. -/
def sseErrorEffs (headersSent : Bool) (code msg : String) : List Eff :=
  (sendSSEError ⟨headersSent, [], false⟩ code msg).frames.map Eff.writeFrame

/-- The user-message text persisted by the route:
`message || (body.imageBase64 ? '[image]' : '')`. -/
def userTextOf (message : String) (imagePresent : Bool) : String :=
  if message = "" then (if imagePresent then "[image]" else "") else message

/-- The first-turn conversation title:
`(message || (imageBase64 ? 'Image' : 'New Conversation')).slice(0, 80).trim() || 'New Conversation'`. -/
def conversationTitleOf (message : String) (imagePresent : Bool) : String :=
  let base :=
    if message = "" then (if imagePresent then "Image" else "New Conversation")
    else message
  let t := jsTrim ⟨base.data.take 80⟩
  if t = "" then "New Conversation" else t

/-- The `accumulatedText` variable of the route: concatenation of the
`text` of every relayed `token` event, in order. -/
def accumulatedText (evs : List StreamPayload) : String :=
  String.join (evs.filterMap fun ev =>
    match ev with
    | .token t => some t
    | _ => none)

/-- The model-message text persisted by the route:
`accumulatedText || '(no response)'`. -/
def modelTextOf (evs : List StreamPayload) : String :=
  if accumulatedText evs = "" then "(no response)" else accumulatedText evs

/-- SSE writes of the relay loop: every yielded event is written as one
`data:` frame, in the order produced by the generator. -/
def relayFrames (evs : List StreamPayload) : List Eff :=
  evs.map fun ev => .writeFrame (.event ev)

/-- Common tail of the queued task once the conversation is resolved
(`src/server/index.ts`, lines 362-424): load history, count messages,
persist the user turn, set the first-turn title, announce a newly created
conversation, relay the generator events, then either persist the model
turn and end (success) or run the catch path — `sendSSEError` (a no-op
when headers are sent) and end. -/
def chatStreamTaskBody (headersSent : Bool) (isNewConversation : Bool)
    (newConvId : String) (countBefore : Nat) (message : String)
    (imagePresent : Bool) (genEvents : List StreamPayload)
    (genErr : Option JsError) : List Eff :=
  [.queryMessages, .countMessages,
   .createMessage .user (userTextOf message imagePresent)]
    ++ (if countBefore = 0 then
          [Eff.updateTitle (conversationTitleOf message imagePresent)]
        else [])
    ++ (if isNewConversation then
          [Eff.writeFrame (.conversation newConvId
            (if countBefore = 0 then some (conversationTitleOf message imagePresent)
             else none))]
        else [])
    ++ relayFrames genEvents
    ++ (match genErr with
        | none => [.createMessage .model (modelTextOf genEvents), .endResponse]
        | some e =>
            sseErrorEffs headersSent (normalizeError e).1 (normalizeError e).2.1
              ++ [.endResponse])

/-- The queued task of `POST /api/chat/stream`: resolve the conversation
(reject inside the already-open stream when a supplied `conversationId`
does not resolve), then run the common body.  Database oracle parameters:
`existingConv` is the `Conversation.findOne` result, `countBefore` the
`countDocuments` result; `genEvents`/`genErr` are the events yielded and
the error raised (if any) by `streamGenerateContent`, which the generator
raises only after yielding `genEvents`. -/
def chatStreamTask (headersSent : Bool) (conversationId : Option String)
    (existingConv : Option String) (countBefore : Nat) (message : String)
    (imagePresent : Bool) (newConvId : String) (genEvents : List StreamPayload)
    (genErr : Option JsError) : List Eff :=
  match conversationId with
  | some _ =>
    match existingConv with
    | none =>
        [.findConversation]
          ++ sseErrorEffs headersSent "BAD_REQUEST"
              "Conversation not found or access denied."
          ++ [.endResponse]
    | some _ =>
        [.findConversation]
          ++ chatStreamTaskBody headersSent false newConvId countBefore message
              imagePresent genEvents genErr
  | none =>
      [.createConversation]
        ++ chatStreamTaskBody headersSent true newConvId countBefore message
            imagePresent genEvents genErr

/-- Summary of one `POST /api/chat/stream` exchange: HTTP status and JSON
error body (for pre-stream rejections), whether the SSE response was
opened (`flushHeaders`), and the effect trace of the queued task. -/
structure RouteResult where
  status : Nat
  jsonError : Option (String × String)
  sseOpened : Bool
  trace : List Eff
deriving Repr, DecidableEq

/-- Embedding of the `POST /api/chat/stream` pipeline
(`src/server/index.ts`, lines 310-431): the `protect` +
`checkDepartmentAccess` middlewares answer plain JSON errors before any
stream is opened (the handler's own `departmentId`/`req.user` re-checks
are unreachable after the middleware); then the message/image validation
answers 400; only then are the SSE headers flushed and the task queued
(so the task always runs with `headersSent = true`). -/
def chatStreamRoute (user : Option String) (departmentId : Option String)
    (accessCode : Option String) (deptLookup : Option (Option String))
    (rawMessage imageBase64 : Option String) (conversationId existingConv : Option String)
    (newConvId : String) (countBefore : Nat) (genEvents : List StreamPayload)
    (genErr : Option JsError) : RouteResult :=
  match checkDepartmentAccess user departmentId accessCode deptLookup with
  | .reject st code msg => ⟨st, some (code, msg), false, []⟩
  | .allow =>
    let message := jsTrim (rawMessage.getD "")
    let imagePresent : Bool := decide (imageBase64.getD "" ≠ "")
    if message = "" ∧ imagePresent = false then
      ⟨400, some ("BAD_REQUEST", "Missing message or image."), false, []⟩
    else
      ⟨200, none, true,
        chatStreamTask true conversationId existingConv countBefore message
          imagePresent newConvId genEvents genErr⟩

/-- Tag test: an SSE write of the `sendSSEError` error payload. -/
def isErrorWrite : Eff → Bool
  | .writeFrame (.errorFrame _ _) => true
  | _ => false

/-- C1 (bug evidence): once the SSE headers are flushed,
`sendSSEError` returns without writing (its `headersSent` guard), so a
request whose generation fails after the stream opened — here an
exhausted-retries 429 — ends the response without any terminal `error`
StreamEvent frame in the stream, contradicting the documented behaviour. -/
theorem chatStream_error_after_sse_open_no_terminal_event :
    sendSSEError ⟨true, [], false⟩ "QUOTA_EXCEEDED"
        "Rate limit exceeded. Please try again in a moment." = ⟨true, [], false⟩
      ∧ chatStreamRoute (some "d1") (some "d1") none (some none) (some "hi") none
          none none "c1" 0 [] (some ⟨some 429, "quota"⟩)
        = ⟨200, none, true,
            [.createConversation, .queryMessages, .countMessages,
             .createMessage .user "hi", .updateTitle "hi",
             .writeFrame (.conversation "c1" (some "hi")), .endResponse]⟩
      ∧ ((chatStreamRoute (some "d1") (some "d1") none (some none) (some "hi") none
          none none "c1" 0 [] (some ⟨some 429, "quota"⟩)).trace.filter isErrorWrite = [])
      ∧ (chatStreamRoute (some "d1") (some "d1") none (some none) (some "hi") none
          none none "c1" 0 [] (some ⟨some 429, "quota"⟩)).trace.getLast?
          = some .endResponse := by
  refine ⟨by decide, by decide, by decide, by decide⟩

/-- C5: effect ordering of the chat-stream task.  On every path that
reaches generation (fresh conversation, or supplied conversation id that
resolves) and on which the stream completes, the trace decomposes as: a
prefix and middle free of message writes and of relayed stream frames,
then the user-turn write, then the relayed stream frames, then the
model-turn write and the response end; the persisted model text is the
concatenation of all `token` texts, with the `(no response)` placeholder
replacing an empty concatenation; and a model-turn write can occur only
when the generator raised no error. -/
theorem chatStreamTask_persistence_order (cid exC : Option String) (nid : String)
    (cb : Nat) (msg : String) (img : Bool) (evs : List StreamPayload)
    (genErr : Option JsError) (hpath : cid = none ∨ exC.isSome) :
    (∃ A B, chatStreamTask true cid exC cb msg img nid evs none
        = A ++ [Eff.createMessage Role.user (userTextOf msg img)]
            ++ B ++ relayFrames evs
            ++ [Eff.createMessage Role.model (modelTextOf evs), Eff.endResponse]
        ∧ (∀ e ∈ A, (∀ r t, e ≠ Eff.createMessage r t)
            ∧ ∀ p, e ≠ Eff.writeFrame (Frame.event p))
        ∧ (∀ e ∈ B, (∀ r t, e ≠ Eff.createMessage r t)
            ∧ ∀ p, e ≠ Eff.writeFrame (Frame.event p)))
      ∧ modelTextOf evs
          = (if accumulatedText evs = "" then "(no response)" else accumulatedText evs)
      ∧ (∀ t, Eff.createMessage Role.model t
            ∈ chatStreamTask true cid exC cb msg img nid evs genErr → genErr = none) := by
  refine ⟨?_, rfl, ?_⟩
  · have hbody : ∀ isNew,
        ∃ B, chatStreamTaskBody true isNew nid cb msg img evs none
          = [Eff.queryMessages, Eff.countMessages,
              Eff.createMessage Role.user (userTextOf msg img)]
              ++ B ++ relayFrames evs
              ++ [Eff.createMessage Role.model (modelTextOf evs), Eff.endResponse]
          ∧ ∀ e ∈ B, (∀ r t, e ≠ Eff.createMessage r t)
              ∧ ∀ p, e ≠ Eff.writeFrame (Frame.event p) := by
      intro isNew
      refine ⟨(if cb = 0 then [Eff.updateTitle (conversationTitleOf msg img)] else [])
        ++ (if isNew then
              [Eff.writeFrame (.conversation nid
                (if cb = 0 then some (conversationTitleOf msg img) else none))]
            else []), ?_, ?_⟩
      · simp [chatStreamTaskBody]
      · intro e he
        rcases List.mem_append.mp he with h | h <;>
          [ (by_cases hcb : cb = 0 <;> simp [hcb] at h) ;
            (by_cases hn : isNew <;> simp [hn] at h) ] <;>
          (subst h; exact ⟨fun r t => by simp, fun p => by simp⟩)
    rcases cid with - | c
    · obtain ⟨B, hB, hBfree⟩ := hbody true
      refine ⟨[Eff.createConversation, Eff.queryMessages, Eff.countMessages], B, ?_, ?_, hBfree⟩
      · simp only [chatStreamTask, hB]
        simp
      · intro e he
        simp only [List.mem_cons, List.not_mem_nil, or_false] at he
        rcases he with h | h | h <;> subst h <;>
          exact ⟨fun r t => by simp, fun p => by simp⟩
    · rcases hex : exC with - | x
      · rcases hpath with h | h
        · cases h
        · rw [hex] at h
          simp at h
      · obtain ⟨B, hB, hBfree⟩ := hbody false
        refine ⟨[Eff.findConversation, Eff.queryMessages, Eff.countMessages], B, ?_, ?_, hBfree⟩
        · simp only [chatStreamTask, hB]
          simp
        · intro e he
          simp only [List.mem_cons, List.not_mem_nil, or_false] at he
          rcases he with h | h | h <;> subst h <;>
            exact ⟨fun r t => by simp, fun p => by simp⟩
  · intro t ht
    cases genErr with
    | none => rfl
    | some e =>
      exfalso
      rcases cid with - | c
      · simp [chatStreamTask, chatStreamTaskBody, relayFrames, sseErrorEffs,
          sendSSEError, userTextOf] at ht
      · rcases exC with - | x
        · simp [chatStreamTask, sseErrorEffs, sendSSEError] at ht
        · simp [chatStreamTask, chatStreamTaskBody, relayFrames, sseErrorEffs,
            sendSSEError, userTextOf] at ht

/-- C5 witness: the ordering instantiated at a fresh conversation whose
stream yields one token. -/
theorem chatStreamTask_persistence_order_witness :
    (∃ A B, chatStreamTask true none none 0 "hi" false "c1" [.token "a"] none
        = A ++ [Eff.createMessage Role.user (userTextOf "hi" false)]
            ++ B ++ relayFrames [.token "a"]
            ++ [Eff.createMessage Role.model (modelTextOf [.token "a"]), Eff.endResponse]
        ∧ (∀ e ∈ A, (∀ r t, e ≠ Eff.createMessage r t)
            ∧ ∀ p, e ≠ Eff.writeFrame (Frame.event p))
        ∧ (∀ e ∈ B, (∀ r t, e ≠ Eff.createMessage r t)
            ∧ ∀ p, e ≠ Eff.writeFrame (Frame.event p)))
      ∧ modelTextOf [.token "a"]
          = (if accumulatedText [.token "a"] = "" then "(no response)"
             else accumulatedText [.token "a"])
      ∧ (∀ t, Eff.createMessage Role.model t
            ∈ chatStreamTask true none none 0 "hi" false "c1" [.token "a"] none
            → (none : Option JsError) = none) :=
  chatStreamTask_persistence_order none none "c1" 0 "hi" false [.token "a"] none
    (Or.inl rfl)

/-- C6 counterexample: the claim as stated fails on the code.  A
same-department request against a department with stored code "1234"
supplying the non-matching access code "12345" is answered with HTTP 400
BAD_REQUEST ("Access code must be 4 digits."), not 403 FORBIDDEN. -/
theorem chatStream_malformed_code_counterexample :
    chatStreamRoute (some "d1") (some "d1") (some "12345") (some (some "1234"))
        (some "hi") none none none "c1" 0 [] none
      = ⟨400, some ("BAD_REQUEST", "Access code must be 4 digits."), false, []⟩
      ∧ (chatStreamRoute (some "d1") (some "d1") (some "12345") (some (some "1234"))
          (some "hi") none none none "c1" 0 [] none).status ≠ 403 := by
  refine ⟨by decide, by decide⟩

/-- C6 amended: whenever the requester's department differs from the
requested one, or the requested department stores a (trimmed) non-empty
access code and the supplied code is missing/empty or is a four-digit
(after trimming) code different from the stored one, the route answers a
single plain JSON body with HTTP 403 and code FORBIDDEN, the SSE stream is
not opened, and no task effect occurs.  (A supplied non-empty code that
does not trim to four digits is answered 400 BAD_REQUEST instead — see the
counterexample.) -/
theorem chatStream_forbidden_paths (userDept reqDept : String)
    (accessCode : Option String) (stored : Option (Option String))
    (rawMessage imageBase64 cid exC : Option String) (nid : String) (cb : Nat)
    (evs : List StreamPayload) (genErr : Option JsError)
    (h : userDept ≠ reqDept
        ∨ (∃ s, stored = some (some s) ∧ jsTrim s ≠ ""
            ∧ (accessCode = none ∨ accessCode = some ""
                ∨ ∃ r, accessCode = some r ∧ isFourDigits (jsTrim r) = true
                    ∧ jsTrim r ≠ jsTrim s))) :
    ∃ msg, chatStreamRoute (some userDept) (some reqDept) accessCode stored rawMessage
        imageBase64 cid exC nid cb evs genErr
        = ⟨403, some ("FORBIDDEN", msg), false, []⟩ := by
  rcases h with hne | ⟨s, hstored, hs, hcode⟩
  · refine ⟨"You can only access spaces in your own department.", ?_⟩
    unfold chatStreamRoute
    have hacc : checkDepartmentAccess (some userDept) (some reqDept) accessCode stored
        = .reject 403 "FORBIDDEN" "You can only access spaces in your own department." := by
      simp [checkDepartmentAccess, hne]
    rw [hacc]
  · subst hstored
    by_cases hd : userDept = reqDept
    · subst hd
      have hred := checkDepartmentAccess_stored_code userDept s accessCode hs
      rcases hcode with hc | hc | ⟨r, hr, hfmt, hneq⟩
      · subst hc
        refine ⟨"Access code required for this space.", ?_⟩
        unfold chatStreamRoute
        rw [hred]
      · subst hc
        refine ⟨"Access code required for this space.", ?_⟩
        unfold chatStreamRoute
        rw [hred]
        simp
      · subst hr
        have hre : r ≠ "" := by
          intro h0
          rw [h0] at hfmt
          simp [jsTrim, isFourDigits] at hfmt
        refine ⟨"Invalid access code.", ?_⟩
        unfold chatStreamRoute
        rw [hred]
        simp [hre, hfmt, hneq.symm]
    · refine ⟨"You can only access spaces in your own department.", ?_⟩
      unfold chatStreamRoute
      have hacc : checkDepartmentAccess (some userDept) (some reqDept) accessCode
          (some (some s))
          = .reject 403 "FORBIDDEN" "You can only access spaces in your own department." := by
        simp [checkDepartmentAccess, hd]
      rw [hacc]

/-- C6 witness: same department, stored code "1234", no code supplied —
the route answers a single 403 FORBIDDEN JSON body and opens no stream. -/
theorem chatStream_forbidden_paths_witness :
    ∃ msg, chatStreamRoute (some "d1") (some "d1") none (some (some "1234"))
        (some "hi") none none none "c1" 0 [] none
        = ⟨403, some ("FORBIDDEN", msg), false, []⟩ :=
  chatStream_forbidden_paths "d1" "d1" none (some (some "1234")) (some "hi") none none
    none "c1" 0 [] none (Or.inr ⟨"1234", rfl, by decide, Or.inl rfl⟩)

/-- C10: with department access granted, the route rejects with 400
BAD_REQUEST ("Missing message or image.") exactly when the trimmed message
is empty AND no image payload is supplied; and in the image-only case (no
message text, image present, conversation resolvable) the persisted
user-role message text is the placeholder "[image]". -/
theorem chatStream_image_only_accepted (user dept : String) (ac : Option String)
    (lookup : Option (Option String)) (rawMessage imageBase64 cid exC : Option String)
    (nid : String) (cb : Nat) (evs : List StreamPayload) (genErr : Option JsError)
    (hacc : checkDepartmentAccess (some user) (some dept) ac lookup = .allow) :
    ((chatStreamRoute (some user) (some dept) ac lookup rawMessage imageBase64 cid exC
          nid cb evs genErr).jsonError
        = some ("BAD_REQUEST", "Missing message or image.")
      ↔ (jsTrim (rawMessage.getD "") = "" ∧ imageBase64.getD "" = ""))
      ∧ (jsTrim (rawMessage.getD "") = "" → imageBase64.getD "" ≠ "" →
          (cid = none ∨ exC.isSome = true) →
          Eff.createMessage Role.user "[image]"
            ∈ (chatStreamRoute (some user) (some dept) ac lookup rawMessage imageBase64
                cid exC nid cb evs genErr).trace) := by
  unfold chatStreamRoute
  rw [hacc]
  have hcond_iff :
      (jsTrim (rawMessage.getD "") = ""
          ∧ (decide (imageBase64.getD "" ≠ "") : Bool) = false)
        ↔ (jsTrim (rawMessage.getD "") = "" ∧ imageBase64.getD "" = "") := by
    simp
  constructor
  · by_cases hc : jsTrim (rawMessage.getD "") = "" ∧ imageBase64.getD "" = ""
    · rw [if_pos (hcond_iff.mpr hc)]
      simp [hc]
    · rw [if_neg (fun hh => hc (hcond_iff.mp hh))]
      simp [hc]
  · intro hm him hpath
    have himgP : (decide (imageBase64.getD "" ≠ "") : Bool) = true := decide_eq_true him
    rw [if_neg (fun hh => him (hcond_iff.mp hh).2)]
    rcases cid with - | c
    · simp [chatStreamTask, chatStreamTaskBody, userTextOf, hm, himgP]
    · rcases hex : exC with - | x
      · rcases hpath with hp | hp
        · cases hp
        · rw [hex] at hp
          simp at hp
      · simp [chatStreamTask, chatStreamTaskBody, userTextOf, hm, himgP]

/-- C10 witness: image-only request on an access-code-free department is
accepted and persists the "[image]" placeholder as the user turn. -/
theorem chatStream_image_only_accepted_witness :
    ((chatStreamRoute (some "d1") (some "d1") none (some none) none (some "QUJD") none
          none "c1" 0 [] none).jsonError
        = some ("BAD_REQUEST", "Missing message or image.")
      ↔ (jsTrim ((none : Option String).getD "") = ""
          ∧ (some "QUJD" : Option String).getD "" = ""))
      ∧ (jsTrim ((none : Option String).getD "") = ""
          → (some "QUJD" : Option String).getD "" ≠ ""
          → ((none : Option String) = none ∨ (none : Option String).isSome = true)
          → Eff.createMessage Role.user "[image]"
              ∈ (chatStreamRoute (some "d1") (some "d1") none (some none) none
                  (some "QUJD") none none "c1" 0 [] none).trace) :=
  chatStream_image_only_accepted "d1" "d1" none (some none) none (some "QUJD") none none
    "c1" 0 [] none (by decide)

/-- Embedding of the concurrency-limit configuration of
`src/server/middleware/requestQueue.ts`:
`Number(process.env.AI_QUEUE_CONCURRENCY) || 3`, read once at module load.
The environment variable is modelled post-`Number`: `none` for
unset/non-numeric (NaN is falsy), `some k` for the numeric value `k`
(0 is falsy and also falls back to 3). -/
def queueConcurrency (env : Option Nat) : Nat :=
  match env with
  | some k => if k = 0 then 3 else k
  | none => 3

/-- Modelled from the spec: state of the request queue of
`src/server/middleware/requestQueue.ts`.  The queue semantics live in the
external `p-queue` dependency (not part of this repository's sources), so
they are modelled from the specification (§4.3): a fixed-width FIFO
admission pool.  Task ids are arrival numbers (`nextId` counts arrivals);
`running` holds the ids whose bodies are executing, `pending` the ids
waiting in FIFO order, `started` logs the order in which task bodies
began, and `settled` logs each completed task with the value its
`withQueue` promise settles to. -/
structure QState (α : Type) where
  nextId : Nat
  running : List Nat
  pending : List Nat
  started : List Nat
  settled : List (Nat × Except JsError α)

/-- Modelled from the spec: one transition of the queue.  `outcomes t` is
the result (resolution or rejection) of task `t`'s own body; a submission
starts immediately when a slot is free, otherwise waits; a completion
settles the task's promise with its own outcome and, if a task is
waiting, starts the head of the FIFO. -/
inductive QStep (n : Nat) (outcomes : Nat → Except JsError α) :
    QState α → QState α → Prop
  | submitRun (s : QState α) (h : s.running.length < n) :
      QStep n outcomes s
        ⟨s.nextId + 1, s.running ++ [s.nextId], s.pending,
         s.started ++ [s.nextId], s.settled⟩
  | submitWait (s : QState α) (h : n ≤ s.running.length) :
      QStep n outcomes s
        ⟨s.nextId + 1, s.running, s.pending ++ [s.nextId], s.started, s.settled⟩
  | completeIdle (s : QState α) (t : Nat) (ht : t ∈ s.running) (hp : s.pending = []) :
      QStep n outcomes s
        ⟨s.nextId, s.running.erase t, [], s.started, s.settled ++ [(t, outcomes t)]⟩
  | completeNext (s : QState α) (t p : Nat) (rest : List Nat) (ht : t ∈ s.running)
      (hp : s.pending = p :: rest) :
      QStep n outcomes s
        ⟨s.nextId, (s.running.erase t) ++ [p], rest,
         s.started ++ [p], s.settled ++ [(t, outcomes t)]⟩

/-- The empty queue at process start. -/
def QInit (α : Type) : QState α := ⟨0, [], [], [], []⟩

/-- States reachable from the empty queue. -/
inductive QReachable (n : Nat) (outcomes : Nat → Except JsError α) : QState α → Prop
  | init : QReachable n outcomes (QInit α)
  | step {s s' : QState α} : QReachable n outcomes s → QStep n outcomes s s' →
      QReachable n outcomes s'

/-- Queue invariant: the pool is bounded by `n`, tasks wait only while the
pool is full, bodies start in strictly increasing arrival order, the FIFO
is ordered and behind every started task, ids are below the arrival
counter, and every settled promise carries its own task's outcome. -/
def QInv (n : Nat) (outcomes : Nat → Except JsError α) (s : QState α) : Prop :=
  s.running.length ≤ n
    ∧ (s.pending ≠ [] → s.running.length = n)
    ∧ s.started.Pairwise (· < ·)
    ∧ s.pending.Pairwise (· < ·)
    ∧ (∀ a ∈ s.started, ∀ b ∈ s.pending, a < b)
    ∧ (∀ a ∈ s.started, a < s.nextId)
    ∧ (∀ b ∈ s.pending, b < s.nextId)
    ∧ (∀ pr ∈ s.settled, pr.2 = outcomes pr.1)

theorem qinv_step {α : Type} {n : Nat} {outcomes : Nat → Except JsError α}
    {s s' : QState α} (hs : QInv n outcomes s) (st : QStep n outcomes s s') :
    QInv n outcomes s' := by
  obtain ⟨hlen, hfull, hst, hpend, hcross, hstN, hpendN, hsettle⟩ := hs
  cases st with
  | submitRun h =>
    have hpempty : s.pending = [] := by
      by_contra hne
      rw [hfull hne] at h
      exact lt_irrefl n h
    refine ⟨?_, ?_, ?_, hpend, ?_, ?_, ?_, hsettle⟩
    · simp only [List.length_append, List.length_singleton]
      omega
    · intro hne
      exact (hne hpempty).elim
    · rw [List.pairwise_append]
      refine ⟨hst, List.pairwise_singleton _ _, ?_⟩
      intro a ha b hb
      rw [List.mem_singleton] at hb
      subst hb
      exact hstN a ha
    · intro a _ b hb
      rw [hpempty] at hb
      cases hb
    · intro a ha
      rcases List.mem_append.mp ha with h1 | h1
      · exact Nat.lt_succ_of_lt (hstN a h1)
      · rw [List.mem_singleton] at h1
        subst h1
        exact Nat.lt_succ_self _
    · intro b hb
      exact Nat.lt_succ_of_lt (hpendN b hb)
  | submitWait h =>
    refine ⟨hlen, fun _ => Nat.le_antisymm hlen h, hst, ?_, ?_, ?_, ?_, hsettle⟩
    · rw [List.pairwise_append]
      refine ⟨hpend, List.pairwise_singleton _ _, ?_⟩
      intro a ha b hb
      rw [List.mem_singleton] at hb
      subst hb
      exact hpendN a ha
    · intro a ha b hb
      rcases List.mem_append.mp hb with h1 | h1
      · exact hcross a ha b h1
      · rw [List.mem_singleton] at h1
        subst h1
        exact hstN a ha
    · intro a ha
      exact Nat.lt_succ_of_lt (hstN a ha)
    · intro b hb
      rcases List.mem_append.mp hb with h1 | h1
      · exact Nat.lt_succ_of_lt (hpendN b h1)
      · rw [List.mem_singleton] at h1
        subst h1
        exact Nat.lt_succ_self _
  | completeIdle t ht hp =>
    refine ⟨?_, ?_, hst, List.Pairwise.nil, ?_, hstN, ?_, ?_⟩
    · exact Nat.le_trans (List.Sublist.length_le (List.erase_sublist t s.running)) hlen
    · intro hne
      exact (hne rfl).elim
    · intro a _ b hb
      cases hb
    · intro b hb
      cases hb
    · intro pr hpr
      rcases List.mem_append.mp hpr with h1 | h1
      · exact hsettle pr h1
      · rw [List.mem_singleton] at h1
        subst h1
        rfl
  | completeNext t p rest ht hp =>
    have hlpos : 0 < s.running.length := List.length_pos.mpr (List.ne_nil_of_mem ht)
    have hlerase : (s.running.erase t).length = s.running.length - 1 :=
      List.length_erase_of_mem ht
    have hfull' : s.running.length = n := hfull (by rw [hp]; simp)
    have hpmem : p ∈ s.pending := by
      rw [hp]
      exact List.mem_cons_self p rest
    refine ⟨?_, ?_, ?_, ?_, ?_, ?_, ?_, ?_⟩
    · simp only [List.length_append, List.length_singleton, hlerase]
      omega
    · intro _
      simp only [List.length_append, List.length_singleton, hlerase]
      omega
    · rw [List.pairwise_append]
      refine ⟨hst, List.pairwise_singleton _ _, ?_⟩
      intro a ha b hb
      rw [List.mem_singleton] at hb
      subst hb
      exact hcross a ha b hpmem
    · rw [hp] at hpend
      exact hpend.of_cons
    · intro a ha b hb
      rcases List.mem_append.mp ha with h1 | h1
      · exact hcross a h1 b (by rw [hp]; exact List.mem_cons_of_mem p hb)
      · rw [List.mem_singleton] at h1
        subst h1
        rw [hp] at hpend
        exact (List.pairwise_cons.mp hpend).1 b hb
    · intro a ha
      rcases List.mem_append.mp ha with h1 | h1
      · exact hstN a h1
      · rw [List.mem_singleton] at h1
        subst h1
        exact hpendN a hpmem
    · intro b hb
      exact hpendN b (by rw [hp]; exact List.mem_cons_of_mem p hb)
    · intro pr hpr
      rcases List.mem_append.mp hpr with h1 | h1
      · exact hsettle pr h1
      · rw [List.mem_singleton] at h1
        subst h1
        rfl

theorem qinv_reachable {α : Type} {n : Nat} {outcomes : Nat → Except JsError α}
    {s : QState α} (hr : QReachable n outcomes s) : QInv n outcomes s := by
  induction hr with
  | init =>
    refine ⟨by simp [QInit], by simp [QInit], ?_, ?_, ?_, ?_, ?_, ?_⟩ <;>
      simp [QInit]
  | step _ st ih => exact qinv_step ih st

/-- C3: the request queue admits task bodies strictly in arrival order
(the start log is strictly increasing in arrival ids), at most `n` bodies
run concurrently in every reachable state (with `n` the concurrency limit
fixed across all steps, and `queueConcurrency none = 3` the default when
the environment variable is unset), tasks wait only while the pool is
full, a waiting task begins only via a step in which an earlier running
task completes and settles (frees a slot), and every settled `withQueue`
promise carries its own task's result or error. -/
theorem requestQueue_fifo_bounded {α : Type} (n : Nat)
    (outcomes : Nat → Except JsError α) (s : QState α)
    (hr : QReachable n outcomes s) :
    queueConcurrency none = 3
      ∧ s.running.length ≤ n
      ∧ s.started.Pairwise (· < ·)
      ∧ (s.pending ≠ [] → s.running.length = n)
      ∧ (∀ pr ∈ s.settled, pr.2 = outcomes pr.1)
      ∧ ∀ s', QStep n outcomes s s' →
          s'.nextId = s.nextId → s'.started ≠ s.started →
            ∃ t, t ∈ s.running ∧ s'.settled = s.settled ++ [(t, outcomes t)] := by
  obtain ⟨hlen, hfull, hst, -, -, -, -, hsettle⟩ := qinv_reachable hr
  refine ⟨rfl, hlen, hst, hfull, hsettle, ?_⟩
  intro s' st hid hstarted
  cases st with
  | submitRun h =>
    exact absurd hid (by simp)
  | submitWait h =>
    exact absurd hid (by simp)
  | completeIdle t ht hp =>
    exact absurd rfl hstarted
  | completeNext t p rest ht hp =>
    exact ⟨t, ht, rfl⟩

/-- C3 witness: with concurrency 1, submit task 0 (starts), submit task 1
(waits), complete task 0 (task 1 starts): the reachable state satisfies
the bound, the FIFO start order and the settlement contract. -/
theorem requestQueue_fifo_bounded_witness :
    queueConcurrency none = 3
      ∧ (QState.mk 2 [1] [] [0, 1] [(0, Except.ok 0)] : QState Nat).running.length ≤ 1
      ∧ (QState.mk 2 [1] [] [0, 1]
          [(0, Except.ok 0)] : QState Nat).started.Pairwise (· < ·)
      ∧ ((QState.mk 2 [1] [] [0, 1] [(0, Except.ok 0)] : QState Nat).pending ≠ [] →
          (QState.mk 2 [1] [] [0, 1] [(0, Except.ok 0)] : QState Nat).running.length = 1)
      ∧ (∀ pr ∈ (QState.mk 2 [1] [] [0, 1] [(0, Except.ok 0)] : QState Nat).settled,
          pr.2 = (fun i => (Except.ok i : Except JsError Nat)) pr.1)
      ∧ ∀ s', QStep 1 (fun i => (Except.ok i : Except JsError Nat))
            (QState.mk 2 [1] [] [0, 1] [(0, Except.ok 0)]) s' →
          s'.nextId = (QState.mk 2 [1] [] [0, 1]
              [(0, Except.ok 0)] : QState Nat).nextId →
          s'.started ≠ (QState.mk 2 [1] [] [0, 1]
              [(0, Except.ok 0)] : QState Nat).started →
            ∃ t, t ∈ (QState.mk 2 [1] [] [0, 1]
                [(0, Except.ok 0)] : QState Nat).running
              ∧ s'.settled = (QState.mk 2 [1] [] [0, 1]
                  [(0, Except.ok 0)] : QState Nat).settled
                  ++ [(t, (fun i => (Except.ok i : Except JsError Nat)) t)] :=
  requestQueue_fifo_bounded 1 (fun i => (Except.ok i : Except JsError Nat))
    (QState.mk 2 [1] [] [0, 1] [(0, Except.ok 0)])
    (QReachable.step
      (QReachable.step
        (QReachable.step QReachable.init
          (QStep.submitRun (QInit Nat) (by simp [QInit])))
        (QStep.submitWait ⟨1, [0], [], [0], []⟩ (by simp)))
      (QStep.completeNext ⟨2, [0], [1], [0], []⟩ 0 1 [] (by simp) rfl))
